import Mathlib

/-!
Shallow embedding of the Tetris engine core of `src/app/page.tsx`
(aquariusluo/fleek-game), together with theorems checking the spec's
claims about it.

Conventions of the embedding:
* grids and tetromino shapes are `List (List Nat)` (a cell is `0` = empty,
  nonzero = occupied), matching the `number[][]` matrices of the source;
* positions are pairs of `Int`s, since the collision check deliberately
  probes negative coordinates;
* a JavaScript read of a missing index (`grid[y]?.[x]`) yields `undefined`,
  which is falsy: it is embedded as the sentinel value `0`;
* a JavaScript write through a missing row (`newGrid[-1][x] = v`, a
  TypeError) is a fault: fallible operations return `Option`, with `none`
  for the fault;
* `Math.random()`-driven choice is embedded by passing the drawn index
  (`Fin 7`) as an explicit parameter.
-/

namespace FleekTetris

/-- Grid width: `const COLS = 10` in src/app/page.tsx. -/
def COLS : Nat := 10

/-- Grid height: `const ROWS = 20` in src/app/page.tsx. -/
def ROWS : Nat := 20

/-- `TETROMINOS.I` from src/app/page.tsx. -/
def shapeI : List (List Nat) := [[1, 1, 1, 1]]

/-- `TETROMINOS.O`. -/
def shapeO : List (List Nat) := [[1, 1], [1, 1]]

/-- `TETROMINOS.T`. -/
def shapeT : List (List Nat) := [[0, 1, 0], [1, 1, 1]]

/-- `TETROMINOS.S`. -/
def shapeS : List (List Nat) := [[0, 1, 1], [1, 1, 0]]

/-- `TETROMINOS.Z`. -/
def shapeZ : List (List Nat) := [[1, 1, 0], [0, 1, 1]]

/-- `TETROMINOS.J`. -/
def shapeJ : List (List Nat) := [[1, 0, 0], [1, 1, 1]]

/-- `TETROMINOS.L`. -/
def shapeL : List (List Nat) := [[0, 0, 1], [1, 1, 1]]

/-- The array `['I', 'O', 'T', 'S', 'Z', 'J', 'L']` of `randomTetromino`,
with each key resolved through `TETROMINOS`. -/
def tetrominoShapes : List (List (List Nat)) :=
  [shapeI, shapeO, shapeT, shapeS, shapeZ, shapeJ, shapeL]

/-- `randomTetromino` of src/app/page.tsx:
`tetrominos[Math.floor(Math.random() * tetrominos.length)]`.  The drawn
index (uniform over `0..6`) is passed explicitly. -/
def randomTetromino (rand : Fin 7) : List (List Nat) :=
  tetrominoShapes.getD rand.val []

/-- `createGrid`: `Array.from({length: ROWS}, () => Array(COLS).fill(0))`. -/
def createGrid : List (List Nat) :=
  List.replicate ROWS (List.replicate COLS 0)

/-- The JavaScript read `grid[y]?.[x]` coerced to a cell value: any missing
index (negative or past the end) yields `undefined`, which is falsy, hence
the sentinel `0`. -/
def cellAt (grid : List (List Nat)) (y x : Int) : Nat :=
  if 0 ≤ y ∧ 0 ≤ x then (grid.getD y.toNat []).getD x.toNat 0 else 0

/-- The per-cell condition inside `isColliding` (src/app/page.tsx lines
77-82), for a filled cell whose absolute coordinates are `(x, y)`:
`newY >= ROWS || newX < 0 || newX >= COLS || (newY >= 0 && grid[newY]?.[newX])`. -/
def cellBlocked (grid : List (List Nat)) (x y : Int) : Bool :=
  decide ((ROWS : Int) ≤ y) || decide (x < 0) || decide ((COLS : Int) ≤ x) ||
    (decide (0 ≤ y) && decide (cellAt grid y x ≠ 0))

/-- The inner `for (let c = ...)` loop of `isColliding`, scanning one shape
row whose leftmost cell sits at absolute coordinates `(x, y)`; returns
`true` as soon as a filled cell is blocked (early `return true`). -/
def collideCells (grid : List (List Nat)) (cells : List Nat) (x y : Int) : Bool :=
  match cells with
  | [] => false
  | cell :: rest =>
      (decide (cell ≠ 0) && cellBlocked grid x y) || collideCells grid rest (x + 1) y

/-- The outer `for (let r = ...)` loop of `isColliding`, scanning the shape
rows downward from absolute row `y`. -/
def collideRows (grid : List (List Nat)) (rows : List (List Nat)) (x y : Int) : Bool :=
  match rows with
  | [] => false
  | row :: rest => collideCells grid row x y || collideRows grid rest x (y + 1)

/-- `isColliding(grid, tetromino, pos)` of src/app/page.tsx (lines 69-88),
with the position `pos` split into its components `x` and `y`. -/
def isColliding (grid tetromino : List (List Nat)) (x y : Int) : Bool :=
  collideRows grid tetromino x y

/-- The assignment `newGrid[y][x] = v` of `merge`.  `newGrid[y]` is a row
only for `0 ≤ y < newGrid.length` — otherwise it is `undefined` and the
assignment is a TypeError, embedded as `none`.  Within a row, `row[x] = v`
with negative `x` stores a non-index property and leaves the row's cells
untouched, so it is the identity on the matrix. -/
def writeCell (grid : List (List Nat)) (y x : Int) (v : Nat) :
    Option (List (List Nat)) :=
  if 0 ≤ y ∧ y.toNat < grid.length then
    some (grid.set y.toNat
      (if 0 ≤ x then (grid.getD y.toNat []).set x.toNat v else grid.getD y.toNat []))
  else none

/-- The inner `row.forEach((cell, c) => ...)` of `merge`: write each filled
cell guarded by `cell && position.y + r < ROWS && position.x + c < COLS`,
where `(x, y)` are the absolute coordinates of the row's leftmost cell.
A faulting write aborts the whole merge (the exception propagates). -/
def mergeCells (grid : List (List Nat)) (cells : List Nat) (x y : Int) :
    Option (List (List Nat)) :=
  match cells with
  | [] => some grid
  | cell :: rest =>
      (if cell ≠ 0 ∧ y < (ROWS : Int) ∧ x < (COLS : Int) then writeCell grid y x cell
       else some grid).bind
        (fun g => mergeCells g rest (x + 1) y)

/-- The outer `tetromino.forEach((row, r) => ...)` of `merge`. -/
def mergeRows (og : Option (List (List Nat))) (rows : List (List Nat)) (x y : Int) :
    Option (List (List Nat)) :=
  match rows with
  | [] => og
  | row :: rest => mergeRows (og.bind fun g => mergeCells g row x y) rest x (y + 1)

/-- `merge(grid, tetromino, position)` of src/app/page.tsx (lines 57-67).
The initial `grid.map((row) => [...row])` copy is the identity on immutable
lists. -/
def merge (grid tetromino : List (List Nat)) (x y : Int) :
    Option (List (List Nat)) :=
  mergeRows (some grid) tetromino x y

/-- `clearRows(grid)` of src/app/page.tsx (lines 90-97): keep the rows
having some `0` cell, count the cleared ones as `ROWS - newGrid.length`
(`Int`, as in JavaScript), and unshift empty rows while the length is below
`ROWS`. -/
def clearRows (grid : List (List Nat)) : List (List Nat) × Int :=
  let newGrid := grid.filter (fun row => row.any (fun cell => cell == 0))
  let clearedRows : Int := (ROWS : Int) - (newGrid.length : Int)
  (List.replicate ((ROWS : Int) - (newGrid.length : Int)).toNat
      (List.replicate COLS 0) ++ newGrid,
   clearedRows)

/-- The rotated-shape computation of `rotateTetromino` (src/app/page.tsx
lines 128-130): `tetromino[0].map((_, idx) => tetromino.map((row) => row[idx]).reverse())`.
A map over `tetromino[0]` that uses only the index is a map over the range
of its length. -/
def rotate (tetromino : List (List Nat)) : List (List Nat) :=
  (List.range (tetromino.headD []).length).map
    (fun idx => (tetromino.map (fun row => row.getD idx 0)).reverse)

/-- `position = { x: Math.floor(COLS / 2) - 1, y: 0 }`: the spawn column. -/
def spawnX : Int := (COLS : Int) / 2 - 1

/-- The engine state owned by the component: the `grid`, `tetromino`,
`position` and `gameOver` / `isPaused` flags of the `useState` hooks. -/
structure GameState where
  grid : List (List Nat)
  tetromino : List (List Nat)
  x : Int
  y : Int
  gameOver : Bool
  isPaused : Bool
deriving DecidableEq, Repr

/-- `moveTetromino(dir)` of src/app/page.tsx (lines 99-104). -/
def moveTetromino (dir : Int) (s : GameState) : GameState :=
  if s.isPaused || s.gameOver then s
  else
    if !(isColliding s.grid s.tetromino (s.x + dir) s.y) then { s with x := s.x + dir }
    else s

/-- `dropTetromino()` of src/app/page.tsx (lines 106-123): the shared
tick / soft-drop step.  The index drawn by `randomTetromino` in the lock
branch is the explicit parameter `rand`; the result is `none` exactly when
the inner `merge` call faults. -/
def dropTetromino (rand : Fin 7) (s : GameState) : Option GameState :=
  if s.isPaused || s.gameOver then some s
  else
    if !(isColliding s.grid s.tetromino s.x (s.y + 1)) then some { s with y := s.y + 1 }
    else
      if s.y == 0 then some { s with gameOver := true }
      else
        (merge s.grid s.tetromino s.x s.y).map fun mergedGrid =>
          { s with grid := (clearRows mergedGrid).1,
                   tetromino := randomTetromino rand,
                   x := spawnX, y := 0 }

/-- `rotateTetromino()` of src/app/page.tsx (lines 125-133). -/
def rotateTetromino (s : GameState) : GameState :=
  if s.isPaused || s.gameOver then s
  else
    let rotated := rotate s.tetromino
    if !(isColliding s.grid rotated s.x s.y) then { s with tetromino := rotated }
    else s

/-- A grid is well formed when it matches the documented invariant:
exactly `ROWS` rows, each of exactly `COLS` cells. -/
def wfGrid (grid : List (List Nat)) : Prop :=
  grid.length = ROWS ∧ ∀ row ∈ grid, row.length = COLS

instance : DecidablePred wfGrid := fun grid => by
  unfold wfGrid; infer_instance

/-- Cell accessor used by the statements: the value at row `i`, column `j`,
with sentinel `0` out of range. -/
def gcell (grid : List (List Nat)) (i j : Nat) : Nat :=
  (grid.getD i []).getD j 0

/-- The value a single piece row, whose leftmost cell sits at column `x`,
contributes at absolute column `j`: the row's cell `j - x`, or `0` when
that is outside the row. -/
def rowContrib (cells : List Nat) (x : Int) (j : Nat) : Nat :=
  if 0 ≤ (j : Int) - x then cells.getD ((j : Int) - x).toNat 0 else 0

/-- The value the piece contributes at absolute cell `(i, j)` when its
top-left corner sits at `(x, y)`: the piece cell at row `i - y`, column
`j - x`, or `0` when that is outside the piece matrix. -/
def pieceVal (tetromino : List (List Nat)) (x y : Int) (i j : Nat) : Nat :=
  if 0 ≤ (i : Int) - y then
    rowContrib (tetromino.getD ((i : Int) - y).toNat []) x j
  else 0

/-- The strict (fault-on-missing-index) grid read used to state claim C9:
`some` of the cell value when `(y, x)` is an index of the grid, `none`
otherwise. -/
def readCellStrict (grid : List (List Nat)) (y x : Int) : Option Nat :=
  if 0 ≤ y ∧ y.toNat < grid.length ∧ 0 ≤ x ∧ x.toNat < (grid.getD y.toNat []).length then
    some ((grid.getD y.toNat []).getD x.toNat 0)
  else none

/-- `collideCells` re-evaluated under a semantics where the occupancy probe
faults (`none`) whenever it touches a coordinate outside the grid, with the
source's short-circuit order: the probe only runs for a filled cell after
`newY >= ROWS`, `newX < 0`, `newX >= COLS` are all false and `newY >= 0`. -/
def collideCellsStrict (grid : List (List Nat)) (cells : List Nat) (x y : Int) :
    Option Bool :=
  match cells with
  | [] => some false
  | cell :: rest =>
      if cell ≠ 0 then
        if (ROWS : Int) ≤ y ∨ x < 0 ∨ (COLS : Int) ≤ x then some true
        else
          if 0 ≤ y then
            (readCellStrict grid y x).bind fun v =>
              if v ≠ 0 then some true else collideCellsStrict grid rest (x + 1) y
          else collideCellsStrict grid rest (x + 1) y
      else collideCellsStrict grid rest (x + 1) y

/-- The row loop of the strict re-evaluation of `isColliding`. -/
def collideRowsStrict (grid : List (List Nat)) (rows : List (List Nat)) (x y : Int) :
    Option Bool :=
  match rows with
  | [] => some false
  | row :: rest =>
      (collideCellsStrict grid row x y).bind fun b =>
        if b then some true else collideRowsStrict grid rest x (y + 1)

/-- `isColliding` under the strict-read semantics of claim C9. -/
def isCollidingStrict (grid tetromino : List (List Nat)) (x y : Int) : Option Bool :=
  collideRowsStrict grid tetromino x y

theorem gcell_of_length_le {g : List (List Nat)} {i : Nat} (j : Nat)
    (h : g.length ≤ i) : gcell g i j = 0 := by
  unfold gcell
  rw [List.getD_eq_default _ _ h]
  rfl

theorem getD_reverse {α : Type} (l : List α) (d : α) {j : Nat}
    (hj : j < l.length) :
    l.reverse.getD j d = l.getD (l.length - 1 - j) d := by
  rw [List.getD_eq_getElem _ _ (by simpa using hj), List.getElem_reverse,
    List.getD_eq_getElem _ _ (by omega)]

theorem getD_map_row (t : List (List Nat)) (i : Nat) {k : Nat}
    (hk : k < t.length) :
    (t.map (fun row => row.getD i 0)).getD k 0 = (t.getD k []).getD i 0 := by
  rw [List.getD_eq_getElem _ _ (by simpa using hk), List.getElem_map,
    List.getD_eq_getElem _ _ hk]

theorem gcell_of_row_length_le {g : List (List Nat)} {i j : Nat}
    (h : (g.getD i []).length ≤ j) : gcell g i j = 0 :=
  List.getD_eq_default _ _ h

theorem matrix_ext_of_rect {a b : List (List Nat)} {R C : Nat}
    (haR : a.length = R) (haC : ∀ row ∈ a, row.length = C)
    (hbR : b.length = R) (hbC : ∀ row ∈ b, row.length = C)
    (hcell : ∀ i j, i < R → j < C → gcell a i j = gcell b i j) : a = b := by
  apply List.ext_getElem (by rw [haR, hbR])
  intro n h1 h2
  have hla : a[n].length = C := haC _ (a.getElem_mem h1)
  have hlb : b[n].length = C := hbC _ (b.getElem_mem h2)
  apply List.ext_getElem (by rw [hla, hlb])
  intro m hm1 hm2
  have hcc := hcell n m (by omega) (by omega)
  unfold gcell at hcc
  rwa [List.getD_eq_getElem _ _ h1, List.getD_eq_getElem _ _ h2,
    List.getD_eq_getElem _ _ hm1, List.getD_eq_getElem _ _ hm2] at hcc

theorem rotate_length (t : List (List Nat)) :
    (rotate t).length = (t.headD []).length := by
  simp [rotate]

theorem headD_length {t : List (List Nat)} {C : Nat} (h0 : 0 < t.length)
    (hC : ∀ row ∈ t, row.length = C) : (t.headD []).length = C := by
  cases t with
  | nil => simp at h0
  | cons r rest => simpa using hC r (List.mem_cons_self r rest)

theorem rotate_getElem (t : List (List Nat)) (i : Nat)
    (hi : i < (rotate t).length) :
    (rotate t)[i] = (t.map (fun row => row.getD i 0)).reverse := by
  simp [rotate]

theorem rotate_row_mem_length (t : List (List Nat)) :
    ∀ row ∈ rotate t, row.length = t.length := by
  intro row hrow
  rw [List.mem_iff_getElem] at hrow
  obtain ⟨n, hn, rfl⟩ := hrow
  rw [rotate_getElem _ _ hn]
  simp

theorem rotate_gcell {t : List (List Nat)} {R C : Nat} (hR : t.length = R)
    (hC : ∀ row ∈ t, row.length = C) (h0 : 0 < R) {i j : Nat}
    (hi : i < C) (hj : j < R) :
    gcell (rotate t) i j = gcell t (R - 1 - j) i := by
  have hlen : (rotate t).length = C := by
    rw [rotate_length]; exact headD_length (by omega) hC
  have hi' : i < (rotate t).length := by rw [hlen]; exact hi
  unfold gcell
  rw [List.getD_eq_getElem _ _ hi', rotate_getElem _ _ hi']
  rw [getD_reverse _ _ (by rw [List.length_map]; omega)]
  rw [List.length_map]
  rw [getD_map_row t i (by omega)]
  rw [hR]

/-- C6: for a rectangular `R × C` 0/1 shape matrix (`R ≥ 1`), the rotation
of `rotateTetromino` returns a `C × R` matrix whose cell `(i, j)` is the
input's cell `(R - 1 - j, i)`: a standard 90-degree clockwise rotation. -/
theorem rotate_is_clockwise (t : List (List Nat)) (R C : Nat)
    (hR : t.length = R) (hC : ∀ row ∈ t, row.length = C) (h0 : 0 < R) :
    (rotate t).length = C ∧ (∀ row ∈ rotate t, row.length = R) ∧
    (∀ i j, i < C → j < R → gcell (rotate t) i j = gcell t (R - 1 - j) i) := by
  refine ⟨?_, ?_, ?_⟩
  · rw [rotate_length]; exact headD_length (by omega) hC
  · intro row h; rw [rotate_row_mem_length t row h, hR]
  · intro i j hi hj; exact rotate_gcell hR hC h0 hi hj

theorem rotate_is_clockwise_witness :
    (shapeT.length = 2 ∧ (∀ row ∈ shapeT, row.length = 3) ∧ 0 < 2) ∧
    ((rotate shapeT).length = 3 ∧ (∀ row ∈ rotate shapeT, row.length = 2) ∧
     (∀ i j, i < 3 → j < 2 → gcell (rotate shapeT) i j = gcell shapeT (2 - 1 - j) i)) :=
  ⟨⟨by decide, by decide, by decide⟩,
   rotate_is_clockwise shapeT 2 3 (by decide) (by decide) (by decide)⟩

/-- C7: rotating a rectangular nonempty 0/1 shape matrix four times with
the clockwise rotation of `rotateTetromino` gives back the original
matrix. -/
theorem rotate_four_times_eq_self (t : List (List Nat)) (R C : Nat)
    (hR : t.length = R) (hC : ∀ row ∈ t, row.length = C)
    (hR0 : 0 < R) (hC0 : 0 < C) :
    rotate (rotate (rotate (rotate t))) = t := by
  have h1R : (rotate t).length = C := by
    rw [rotate_length]; exact headD_length (by omega) hC
  have h1C : ∀ row ∈ rotate t, row.length = R := by
    intro row h; rw [rotate_row_mem_length t row h, hR]
  have h2R : (rotate (rotate t)).length = R := by
    rw [rotate_length]; exact headD_length (by omega) h1C
  have h2C : ∀ row ∈ rotate (rotate t), row.length = C := by
    intro row h; rw [rotate_row_mem_length _ row h, h1R]
  have h3R : (rotate (rotate (rotate t))).length = C := by
    rw [rotate_length]; exact headD_length (by omega) h2C
  have h3C : ∀ row ∈ rotate (rotate (rotate t)), row.length = R := by
    intro row h; rw [rotate_row_mem_length _ row h, h2R]
  have h4R : (rotate (rotate (rotate (rotate t)))).length = R := by
    rw [rotate_length]; exact headD_length (by omega) h3C
  have h4C : ∀ row ∈ rotate (rotate (rotate (rotate t))), row.length = C := by
    intro row h; rw [rotate_row_mem_length _ row h, h3R]
  apply matrix_ext_of_rect h4R h4C hR hC
  intro i j hi hj
  rw [rotate_gcell h3R h3C (by omega) hi hj]
  rw [rotate_gcell h2R h2C (by omega) (by omega : C - 1 - j < C) (by omega : i < R)]
  rw [rotate_gcell h1R h1C (by omega) (by omega : R - 1 - i < R)
    (by omega : C - 1 - j < C)]
  rw [(by omega : C - 1 - (C - 1 - j) = j)]
  rw [rotate_gcell hR hC (by omega) (by omega : j < C) (by omega : R - 1 - i < R)]
  rw [(by omega : R - 1 - (R - 1 - i) = i)]

theorem collideCells_iff (g : List (List Nat)) (cells : List Nat) (x y : Int) :
    collideCells g cells x y = true ↔
      ∃ c < cells.length, cells.getD c 0 ≠ 0 ∧ cellBlocked g (x + c) y = true := by
  induction cells generalizing x with
  | nil => simp [collideCells]
  | cons cell rest ih =>
      simp only [collideCells, Bool.or_eq_true, Bool.and_eq_true,
        decide_eq_true_eq, ih]
      constructor
      · rintro (⟨hcell, hb⟩ | ⟨c, hc, h1, h2⟩)
        · exact ⟨0, by simp, by simpa using hcell, by simpa using hb⟩
        · refine ⟨c + 1, by simp only [List.length_cons]; omega,
            by simpa using h1, ?_⟩
          have he : x + ((c + 1 : Nat) : Int) = x + 1 + (c : Int) := by
            push_cast; ring
          rw [he]
          exact h2
      · rintro ⟨c, hc, h1, h2⟩
        cases c with
        | zero => exact Or.inl ⟨by simpa using h1, by simpa using h2⟩
        | succ c =>
            simp only [List.length_cons] at hc
            refine Or.inr ⟨c, by omega, by simpa using h1, ?_⟩
            have he : x + ((c + 1 : Nat) : Int) = x + 1 + (c : Int) := by
              push_cast; ring
            rw [he] at h2
            exact h2

theorem collideRows_iff (g : List (List Nat)) (rows : List (List Nat)) (x y : Int) :
    collideRows g rows x y = true ↔
      ∃ r < rows.length, ∃ c < (rows.getD r []).length,
        (rows.getD r []).getD c 0 ≠ 0 ∧ cellBlocked g (x + c) (y + r) = true := by
  induction rows generalizing y with
  | nil => simp [collideRows]
  | cons row rest ih =>
      simp only [collideRows, Bool.or_eq_true, collideCells_iff, ih]
      constructor
      · rintro (⟨c, hc, h1, h2⟩ | ⟨r, hr, c, hc, h1, h2⟩)
        · exact ⟨0, by simp, c, by simpa using hc, by simpa using h1,
            by simpa using h2⟩
        · refine ⟨r + 1, by simp only [List.length_cons]; omega, c,
            by simpa using hc, by simpa using h1, ?_⟩
          have he : y + ((r + 1 : Nat) : Int) = y + 1 + (r : Int) := by
            push_cast; ring
          rw [he]
          exact h2
      · rintro ⟨r, hr, c, hc, h1, h2⟩
        cases r with
        | zero =>
            exact Or.inl ⟨c, by simpa using hc, by simpa using h1,
              by simpa using h2⟩
        | succ r =>
            simp only [List.length_cons] at hr
            refine Or.inr ⟨r, by omega, c, by simpa using hc, by simpa using h1, ?_⟩
            have he : y + ((r + 1 : Nat) : Int) = y + 1 + (r : Int) := by
              push_cast; ring
            rw [he] at h2
            exact h2

theorem cellBlocked_iff (g : List (List Nat)) (a b : Int) :
    cellBlocked g a b = true ↔
      ((ROWS : Int) ≤ b ∨ a < 0 ∨ (COLS : Int) ≤ a ∨
        (0 ≤ b ∧ (g.getD b.toNat []).getD a.toNat 0 ≠ 0)) := by
  unfold cellBlocked cellAt
  simp only [Bool.or_eq_true, Bool.and_eq_true, decide_eq_true_eq]
  by_cases ha : 0 ≤ a
  · by_cases hb : 0 ≤ b
    · simp only [ha, hb, and_true, true_and, if_pos (And.intro hb ha)]
      tauto
    · simp only [hb, false_and, and_false, or_false, if_neg
        (by tauto : ¬(0 ≤ b ∧ 0 ≤ a))]
      tauto
  · have ha' : a < 0 := by omega
    simp [ha']

theorem isColliding_char (grid tetromino : List (List Nat)) (x y : Int) :
    isColliding grid tetromino x y = true ↔
      ∃ r < tetromino.length, ∃ c < (tetromino.getD r []).length,
        (tetromino.getD r []).getD c 0 ≠ 0 ∧
        ((ROWS : Int) ≤ y + r ∨ x + c < 0 ∨ (COLS : Int) ≤ x + c ∨
          (0 ≤ y + r ∧ (grid.getD (y + r).toNat []).getD (x + c).toNat 0 ≠ 0)) := by
  unfold isColliding
  simp only [collideRows_iff, cellBlocked_iff]

/-- C2: `isColliding(grid, piece, position)` is true iff some filled cell of
the piece, placed at the position, resolves to a row at or below the floor
(`ROWS ≤ row`), a column outside `[0, COLS)`, or — only when its row is
nonnegative — an already occupied target grid cell.  In particular it is
true whenever a filled cell is horizontally out of range regardless of row,
and filled cells with a negative row are exempt from the occupancy check. -/
theorem isColliding_iff (grid tetromino : List (List Nat)) (x y : Int) :
    isColliding grid tetromino x y = true ↔
      ∃ r < tetromino.length, ∃ c < (tetromino.getD r []).length,
        (tetromino.getD r []).getD c 0 ≠ 0 ∧
        ((ROWS : Int) ≤ y + r ∨ x + c < 0 ∨ (COLS : Int) ≤ x + c ∨
          (0 ≤ y + r ∧ (grid.getD (y + r).toNat []).getD (x + c).toNat 0 ≠ 0)) :=
  isColliding_char grid tetromino x y

theorem collideCellsStrict_eq (g : List (List Nat)) (hwf : wfGrid g)
    (cells : List Nat) (x y : Int) :
    collideCellsStrict g cells x y = some (collideCells g cells x y) := by
  induction cells generalizing x with
  | nil => simp [collideCellsStrict, collideCells]
  | cons cell rest ih =>
      by_cases hcell : cell ≠ 0
      · by_cases hout : (ROWS : Int) ≤ y ∨ x < 0 ∨ (COLS : Int) ≤ x
        · have hb : cellBlocked g x y = true := by rw [cellBlocked_iff]; tauto
          simp [collideCellsStrict, collideCells, hcell, hout, hb]
        · push_neg at hout
          obtain ⟨h1, h2, h3⟩ := hout
          by_cases hy : 0 ≤ y
          · have hglen : g.length = ROWS := hwf.1
            have hyR : y.toNat < g.length := by omega
            have hrow : (g.getD y.toNat []).length = COLS := by
              apply hwf.2
              rw [List.getD_eq_getElem _ _ hyR]
              exact g.getElem_mem hyR
            have hread : readCellStrict g y x
                = some ((g.getD y.toNat []).getD x.toNat 0) := by
              unfold readCellStrict
              rw [if_pos ⟨hy, hyR, h2, by omega⟩]
            have hout' : ¬((ROWS : Int) ≤ y ∨ x < 0 ∨ (COLS : Int) ≤ x) := by
              push_neg
              exact ⟨by omega, by omega, by omega⟩
            rw [show collideCellsStrict g (cell :: rest) x y
                  = (if cell ≠ 0 then
                      if (ROWS : Int) ≤ y ∨ x < 0 ∨ (COLS : Int) ≤ x then some true
                      else
                        if 0 ≤ y then
                          (readCellStrict g y x).bind fun v =>
                            if v ≠ 0 then some true
                            else collideCellsStrict g rest (x + 1) y
                        else collideCellsStrict g rest (x + 1) y
                    else collideCellsStrict g rest (x + 1) y) from rfl]
            rw [if_pos hcell, if_neg hout', if_pos hy, hread, Option.some_bind]
            by_cases hv : (g.getD y.toNat []).getD x.toNat 0 ≠ 0
            · have hb : cellBlocked g x y = true := by
                rw [cellBlocked_iff]
                exact Or.inr (Or.inr (Or.inr ⟨hy, hv⟩))
              rw [if_pos hv]
              simp [collideCells, hcell, hb]
            · have hb : cellBlocked g x y = false := by
                rw [← Bool.not_eq_true, cellBlocked_iff]
                push_neg
                refine ⟨by omega, by omega, by omega, fun _ => by simpa using hv⟩
              rw [if_neg hv, ih]
              simp [collideCells, hb]
          · have hb : cellBlocked g x y = false := by
              rw [← Bool.not_eq_true, cellBlocked_iff]
              push_neg
              exact ⟨by omega, by omega, by omega, fun h => absurd h hy⟩
            simp [collideCellsStrict, collideCells, hcell, h1, h2, h3, hy, hb, ih]
      · simp [collideCellsStrict, collideCells, hcell, ih]

theorem collideRowsStrict_eq (g : List (List Nat)) (hwf : wfGrid g)
    (rows : List (List Nat)) (x y : Int) :
    collideRowsStrict g rows x y = some (collideRows g rows x y) := by
  induction rows generalizing y with
  | nil => simp [collideRowsStrict, collideRows]
  | cons row rest ih =>
      rw [collideRowsStrict, collideCellsStrict_eq g hwf row x y]
      cases hb : collideCells g row x y
      · simp [collideRows, hb, ih]
      · simp [collideRows, hb]

/-- C9: for a well-formed grid, `isColliding` evaluates totally without
faulting: re-evaluating it under the strict semantics in which any
out-of-range occupancy probe is an error (`none`) produces `some` of the
same boolean, so the occupancy lookup is only ever consulted at coordinates
where the grid is defined, and every out-of-range probe is handled by the
sentinel instead of an error. -/
theorem isColliding_total_strict (grid tetromino : List (List Nat)) (x y : Int)
    (hwf : wfGrid grid) :
    isCollidingStrict grid tetromino x y = some (isColliding grid tetromino x y) :=
  collideRowsStrict_eq grid hwf tetromino x y

theorem isColliding_total_strict_witness :
    wfGrid createGrid ∧
    isCollidingStrict createGrid shapeT 4 (-1)
      = some (isColliding createGrid shapeT 4 (-1)) :=
  ⟨by decide, isColliding_total_strict createGrid shapeT 4 (-1) (by decide)⟩

theorem rotate_four_times_eq_self_witness :
    (shapeL.length = 2 ∧ (∀ row ∈ shapeL, row.length = 3) ∧ 0 < 2 ∧ 0 < 3) ∧
    rotate (rotate (rotate (rotate shapeL))) = shapeL :=
  ⟨⟨by decide, by decide, by decide, by decide⟩,
   rotate_four_times_eq_self shapeL 2 3 (by decide) (by decide) (by decide) (by decide)⟩

theorem any_zero_eq_not_full (row : List Nat) :
    row.any (fun cell => cell == 0) = !(row.all (fun cell => cell != 0)) := by
  induction row with
  | nil => rfl
  | cons c rest ih => simp [List.any_cons, List.all_cons, ih, bne]

/-- C3: on a grid of exactly `ROWS` rows, `clearRows` removes exactly the
full rows (those with no `0` cell), reports their number as the cleared
count, and prepends that many all-empty rows above the surviving rows,
whose relative order is preserved; the result again has `ROWS` rows. -/
theorem clearRows_spec (grid : List (List Nat)) (h : grid.length = ROWS) :
    (clearRows grid).2
        = ((grid.filter (fun row => row.all (fun cell => cell != 0))).length : Int) ∧
    (clearRows grid).1
      = List.replicate
          (grid.filter (fun row => row.all (fun cell => cell != 0))).length
          (List.replicate COLS 0)
        ++ grid.filter (fun row => !(row.all (fun cell => cell != 0))) ∧
    (clearRows grid).1.length = ROWS := by
  have hsplit := List.length_eq_length_filter_add
    (l := grid) (fun row => row.all (fun cell => cell != 0))
  have hpred : grid.filter (fun row => row.any (fun cell => cell == 0))
      = grid.filter (fun row => !(row.all (fun cell => cell != 0))) := by
    apply List.filter_congr
    intro row _
    exact any_zero_eq_not_full row
  refine ⟨?_, ?_, ?_⟩
  · simp only [clearRows, hpred]
    omega
  · simp only [clearRows, hpred]
    have hcount :
        ((ROWS : Int)
          - ((grid.filter (fun row => !(row.all fun cell => cell != 0))).length : Int)).toNat
        = (grid.filter (fun row => row.all fun cell => cell != 0)).length := by
      omega
    rw [hcount]
  · simp only [clearRows, hpred, List.length_append, List.length_replicate]
    omega

theorem clearRows_spec_witness :
    createGrid.length = ROWS ∧
    ((clearRows createGrid).2
        = ((createGrid.filter (fun row => row.all (fun cell => cell != 0))).length : Int) ∧
     (clearRows createGrid).1
       = List.replicate
           (createGrid.filter (fun row => row.all (fun cell => cell != 0))).length
           (List.replicate COLS 0)
         ++ createGrid.filter (fun row => !(row.all (fun cell => cell != 0))) ∧
     (clearRows createGrid).1.length = ROWS) :=
  ⟨by decide, clearRows_spec createGrid (by decide)⟩

/-- C8: while the game is paused or over, move, rotate and tick/soft-drop
are all no-ops: the grid, the piece and the position are unchanged (and the
drop does not fault). -/
theorem commands_noop_when_not_running (s : GameState) (dir : Int) (rand : Fin 7)
    (h : s.isPaused = true ∨ s.gameOver = true) :
    moveTetromino dir s = s ∧ rotateTetromino s = s ∧
      dropTetromino rand s = some s := by
  have hguard : (s.isPaused || s.gameOver) = true := by
    rcases h with h | h <;> simp [h]
  exact ⟨by simp [moveTetromino, hguard], by simp [rotateTetromino, hguard],
    by simp [dropTetromino, hguard]⟩

theorem commands_noop_when_not_running_witness :
    ((⟨createGrid, shapeT, 4, 0, false, true⟩ : GameState).isPaused = true ∨
      (⟨createGrid, shapeT, 4, 0, false, true⟩ : GameState).gameOver = true) ∧
    (moveTetromino 1 ⟨createGrid, shapeT, 4, 0, false, true⟩
        = ⟨createGrid, shapeT, 4, 0, false, true⟩ ∧
      rotateTetromino ⟨createGrid, shapeT, 4, 0, false, true⟩
        = ⟨createGrid, shapeT, 4, 0, false, true⟩ ∧
      dropTetromino 0 ⟨createGrid, shapeT, 4, 0, false, true⟩
        = some ⟨createGrid, shapeT, 4, 0, false, true⟩) :=
  ⟨Or.inl rfl, commands_noop_when_not_running _ 1 0 (Or.inl rfl)⟩

/-- C5: a running game whose piece collides one row below its position and
whose current `y` is `0` transitions to game over with everything else —
in particular the grid — unchanged. -/
theorem drop_blocked_at_spawn_row_sets_game_over (s : GameState) (rand : Fin 7)
    (hp : s.isPaused = false) (hg : s.gameOver = false) (hy : s.y = 0)
    (hcol : isColliding s.grid s.tetromino s.x (s.y + 1) = true) :
    dropTetromino rand s = some { s with gameOver := true } := by
  have hcol' : isColliding s.grid s.tetromino s.x 1 = true := by
    simpa [hy] using hcol
  simp [dropTetromino, hp, hg, hcol', hy]

theorem drop_blocked_at_spawn_row_sets_game_over_witness :
    isColliding (createGrid.set 1 ((List.replicate COLS 0).set 4 1)) [[1]] 4 (0 + 1)
        = true ∧
    dropTetromino 0
        ⟨createGrid.set 1 ((List.replicate COLS 0).set 4 1), [[1]], 4, 0, false, false⟩
      = some { (⟨createGrid.set 1 ((List.replicate COLS 0).set 4 1), [[1]], 4, 0,
                  false, false⟩ : GameState) with gameOver := true } :=
  ⟨by decide,
   drop_blocked_at_spawn_row_sets_game_over _ 0 rfl rfl rfl (by decide)⟩

theorem mergeCells_cons (g : List (List Nat)) (cell : Nat) (rest : List Nat)
    (x y : Int) :
    mergeCells g (cell :: rest) x y
      = (if cell ≠ 0 ∧ y < (ROWS : Int) ∧ x < (COLS : Int) then writeCell g y x cell
         else some g).bind (fun g2 => mergeCells g2 rest (x + 1) y) := rfl

theorem mergeRows_cons (og : Option (List (List Nat))) (row : List Nat)
    (rest : List (List Nat)) (x y : Int) :
    mergeRows og (row :: rest) x y
      = mergeRows (og.bind fun g => mergeCells g row x y) rest x (y + 1) := rfl

theorem mergeCells_some_of_nonneg (cells : List Nat) (g : List (List Nat))
    (x y : Int) (hy : 0 ≤ y) (hlen : g.length = ROWS) :
    ∃ g', mergeCells g cells x y = some g' ∧ g'.length = ROWS := by
  induction cells generalizing g x with
  | nil => exact ⟨g, rfl, hlen⟩
  | cons cell rest ih =>
      by_cases hguard : cell ≠ 0 ∧ y < (ROWS : Int) ∧ x < (COLS : Int)
      · have hset :
            (g.set y.toNat (if 0 ≤ x then (g.getD y.toNat []).set x.toNat cell
              else g.getD y.toNat [])).length = ROWS := by
          rw [List.length_set]; exact hlen
        have hw : writeCell g y x cell
            = some (g.set y.toNat (if 0 ≤ x then (g.getD y.toNat []).set x.toNat cell
                else g.getD y.toNat [])) := by
          unfold writeCell
          rw [if_pos ⟨hy, by omega⟩]
        rw [mergeCells_cons, if_pos hguard, hw, Option.some_bind]
        exact ih _ (x + 1) hset
      · rw [mergeCells_cons, if_neg hguard, Option.some_bind]
        exact ih g (x + 1) hlen

theorem mergeRows_some_of_nonneg (rows : List (List Nat)) (g : List (List Nat))
    (x y : Int) (hy : 0 ≤ y) (hlen : g.length = ROWS) :
    ∃ g', mergeRows (some g) rows x y = some g' ∧ g'.length = ROWS := by
  induction rows generalizing g y with
  | nil => exact ⟨g, rfl, hlen⟩
  | cons row rest ih =>
      obtain ⟨g1, hg1, hlen1⟩ := mergeCells_some_of_nonneg row g x y hy hlen
      rw [mergeRows_cons, Option.some_bind, hg1]
      exact ih g1 (y + 1) (by omega) hlen1

theorem rowContrib_nil (x : Int) (j : Nat) : rowContrib [] x j = 0 := by
  unfold rowContrib
  split <;> simp

theorem rowContrib_cons (cell : Nat) (rest : List Nat) (x : Int) (j : Nat) :
    rowContrib (cell :: rest) x j
      = if (j : Int) = x then cell else rowContrib rest (x + 1) j := by
  unfold rowContrib
  by_cases hjx : (j : Int) = x
  · rw [if_pos hjx, if_pos (by omega)]
    rw [show ((j : Int) - x).toNat = 0 from by omega, List.getD_cons_zero]
  · rw [if_neg hjx]
    by_cases hge : 0 ≤ (j : Int) - x
    · rw [if_pos hge, if_pos (by omega : 0 ≤ (j : Int) - (x + 1))]
      rw [show ((j : Int) - x).toNat = ((j : Int) - (x + 1)).toNat + 1 from by omega,
        List.getD_cons_succ]
    · rw [if_neg hge, if_neg (by omega : ¬0 ≤ (j : Int) - (x + 1))]

theorem pieceVal_nil (x y : Int) (i j : Nat) : pieceVal [] x y i j = 0 := by
  unfold pieceVal
  split
  · simpa using rowContrib_nil x j
  · rfl

theorem pieceVal_cons (row : List Nat) (rest : List (List Nat)) (x y : Int)
    (i j : Nat) :
    pieceVal (row :: rest) x y i j
      = if (i : Int) = y then rowContrib row x j
        else pieceVal rest x (y + 1) i j := by
  unfold pieceVal
  by_cases hiy : (i : Int) = y
  · rw [if_pos hiy, if_pos (by omega)]
    rw [show ((i : Int) - y).toNat = 0 from by omega, List.getD_cons_zero]
  · rw [if_neg hiy]
    by_cases hge : 0 ≤ (i : Int) - y
    · rw [if_pos hge, if_pos (by omega : 0 ≤ (i : Int) - (y + 1))]
      rw [show ((i : Int) - y).toNat = ((i : Int) - (y + 1)).toNat + 1 from by omega,
        List.getD_cons_succ]
    · rw [if_neg hge, if_neg (by omega : ¬0 ≤ (i : Int) - (y + 1))]

theorem gcell_set (g : List (List Nat)) (n : Nat) (r : List Nat) (i j : Nat)
    (hi : i < g.length) :
    gcell (g.set n r) i j = if n = i then r.getD j 0 else gcell g i j := by
  unfold gcell
  rw [List.getD_eq_getElem (g.set n r) [] (by rw [List.length_set]; exact hi),
    List.getElem_set, List.getD_eq_getElem g [] hi]
  by_cases h : n = i
  · rw [if_pos h, if_pos h]
  · rw [if_neg h, if_neg h]

theorem getD_set_row (row : List Nat) (m : Nat) (v : Nat) (j : Nat)
    (hj : j < row.length) :
    (row.set m v).getD j 0 = if m = j then v else row.getD j 0 := by
  rw [List.getD_eq_getElem (row.set m v) 0 (by rw [List.length_set]; exact hj),
    List.getElem_set, List.getD_eq_getElem row 0 hj]

theorem writeCell_char (g : List (List Nat)) (y x : Int) (v : Nat)
    (hlen : g.length = ROWS) (hwide : ∀ row ∈ g, row.length = COLS)
    (hy0 : 0 ≤ y) (hyR : y < (ROWS : Int)) :
    ∃ g', writeCell g y x v = some g' ∧ g'.length = ROWS ∧
      (∀ row ∈ g', row.length = COLS) ∧
      (∀ i j, i < ROWS → j < COLS →
        gcell g' i j = if (i : Int) = y ∧ (j : Int) = x then v
          else gcell g i j) := by
  have hyN : y.toNat < g.length := by omega
  have hrowmem : g.getD y.toNat [] ∈ g := by
    rw [List.getD_eq_getElem _ _ hyN]; exact g.getElem_mem hyN
  have hrowlen : (g.getD y.toNat []).length = COLS := hwide _ hrowmem
  refine ⟨g.set y.toNat (if 0 ≤ x then (g.getD y.toNat []).set x.toNat v
      else g.getD y.toNat []), ?_, ?_, ?_, ?_⟩
  · unfold writeCell
    rw [if_pos ⟨hy0, hyN⟩]
  · rw [List.length_set]; exact hlen
  · intro r hr
    rcases List.mem_or_eq_of_mem_set hr with h | h
    · exact hwide r h
    · rw [h]
      split
      · rw [List.length_set]; exact hrowlen
      · exact hrowlen
  · intro i j hi hj
    have hiL : i < g.length := by omega
    rw [gcell_set _ _ _ _ _ hiL]
    by_cases hiy : (i : Int) = y
    · rw [if_pos (by omega : y.toNat = i)]
      by_cases hx0 : 0 ≤ x
      · rw [if_pos hx0,
          getD_set_row _ _ _ _ (by omega : j < (g.getD y.toNat []).length)]
        by_cases hjx : (j : Int) = x
        · rw [if_pos (by omega : x.toNat = j), if_pos ⟨hiy, hjx⟩]
        · rw [if_neg (by omega : ¬x.toNat = j), if_neg (by tauto)]
          unfold gcell
          rw [show y.toNat = i from by omega]
      · rw [if_neg hx0, if_neg (by rintro ⟨-, hjx⟩; omega)]
        unfold gcell
        rw [show y.toNat = i from by omega]
    · rw [if_neg (by omega : ¬y.toNat = i), if_neg (by tauto)]

theorem mergeCells_char (cells : List Nat) (g : List (List Nat)) (x y : Int)
    (hlen : g.length = ROWS) (hwide : ∀ row ∈ g, row.length = COLS)
    (hnf : ∀ c : Nat, c < cells.length → cells.getD c 0 ≠ 0 →
      x + c < (COLS : Int) → 0 ≤ y) :
    ∃ g', mergeCells g cells x y = some g' ∧ g'.length = ROWS ∧
      (∀ row ∈ g', row.length = COLS) ∧
      (∀ i j, i < ROWS → j < COLS →
        gcell g' i j = if (i : Int) = y ∧ rowContrib cells x j ≠ 0
          then rowContrib cells x j else gcell g i j) := by
  induction cells generalizing g x with
  | nil =>
      refine ⟨g, rfl, hlen, hwide, ?_⟩
      intro i j hi hj
      rw [if_neg (by rintro ⟨-, hne⟩; exact hne (rowContrib_nil x j))]
  | cons cell rest ih =>
      by_cases hguard : cell ≠ 0 ∧ y < (ROWS : Int) ∧ x < (COLS : Int)
      · have hy0 : 0 ≤ y :=
          hnf 0 (by simp) (by simpa using hguard.1) (by simpa using hguard.2.2)
        obtain ⟨g1, hw, hlen1, hwide1, hchar1⟩ :=
          writeCell_char g y x cell hlen hwide hy0 hguard.2.1
        obtain ⟨g', hg', hlen', hwide', hchar'⟩ :=
          ih g1 (x + 1) hlen1 hwide1 (fun _ _ _ _ => hy0)
        refine ⟨g', ?_, hlen', hwide', ?_⟩
        · rw [mergeCells_cons, if_pos hguard, hw, Option.some_bind, hg']
        · intro i j hi hj
          rw [hchar' i j hi hj, hchar1 i j hi hj, rowContrib_cons]
          by_cases hiy : (i : Int) = y
          · by_cases hjx : (j : Int) = x
            · have hr0 : rowContrib rest (x + 1) j = 0 := by
                unfold rowContrib
                rw [if_neg (by omega)]
              simp [hiy, hjx, hr0, hguard.1]
            · simp [hiy, hjx]
          · simp [hiy]
      · have hstep : mergeCells g (cell :: rest) x y
            = mergeCells g rest (x + 1) y := by
          rw [mergeCells_cons, if_neg hguard, Option.some_bind]
        have hnf' : ∀ c : Nat, c < rest.length → rest.getD c 0 ≠ 0 →
            (x + 1) + c < (COLS : Int) → 0 ≤ y := by
          intro c hc h1 h2
          refine hnf (c + 1) (by simp only [List.length_cons]; omega)
            (by simpa using h1) ?_
          push_cast at h2 ⊢
          omega
        obtain ⟨g', hg', hlen', hwide', hchar'⟩ := ih g (x + 1) hlen hwide hnf'
        refine ⟨g', hstep ▸ hg', hlen', hwide', ?_⟩
        intro i j hi hj
        rw [hchar' i j hi hj, rowContrib_cons]
        by_cases hcell : cell = 0
        · by_cases hjx : (j : Int) = x
          · have hr0 : rowContrib rest (x + 1) j = 0 := by
              unfold rowContrib
              rw [if_neg (by omega)]
            simp [hjx, hcell, hr0]
          · simp [hjx]
        · have hor : ¬(y < (ROWS : Int)) ∨ ¬(x < (COLS : Int)) := by tauto
          rcases hor with hyR | hxC
          · have hiy : ¬(i : Int) = y := by omega
            simp [hiy]
          · have hjx : ¬(j : Int) = x := by omega
            have hr0 : rowContrib rest (x + 1) j = 0 := by
              unfold rowContrib
              rw [if_neg (by omega)]
            simp [hjx, hr0]

theorem mergeRows_char (rows : List (List Nat)) (g : List (List Nat)) (x y : Int)
    (hlen : g.length = ROWS) (hwide : ∀ row ∈ g, row.length = COLS)
    (hnf : ∀ r c : Nat, r < rows.length → c < (rows.getD r []).length →
      (rows.getD r []).getD c 0 ≠ 0 → x + c < (COLS : Int) → 0 ≤ y + r) :
    ∃ g', mergeRows (some g) rows x y = some g' ∧ g'.length = ROWS ∧
      (∀ row ∈ g', row.length = COLS) ∧
      (∀ i j, i < ROWS → j < COLS →
        gcell g' i j = if pieceVal rows x y i j ≠ 0 then pieceVal rows x y i j
          else gcell g i j) := by
  induction rows generalizing g y with
  | nil =>
      refine ⟨g, rfl, hlen, hwide, ?_⟩
      intro i j hi hj
      rw [pieceVal_nil, if_neg (by simp)]
  | cons row rest ih =>
      have hnf0 : ∀ c : Nat, c < row.length → row.getD c 0 ≠ 0 →
          x + c < (COLS : Int) → 0 ≤ y := by
        intro c hc h1 h2
        have := hnf 0 c (by simp) (by simpa using hc) (by simpa using h1) h2
        simpa using this
      obtain ⟨g1, hg1, hlen1, hwide1, hchar1⟩ :=
        mergeCells_char row g x y hlen hwide hnf0
      have hnf' : ∀ r c : Nat, r < rest.length → c < (rest.getD r []).length →
          (rest.getD r []).getD c 0 ≠ 0 → x + c < (COLS : Int) →
          0 ≤ (y + 1) + r := by
        intro r c hr hc h1 h2
        have := hnf (r + 1) c (by simp only [List.length_cons]; omega)
          (by simpa using hc) (by simpa using h1) h2
        push_cast at this ⊢
        omega
      obtain ⟨g', hg', hlen', hwide', hchar'⟩ := ih g1 (y + 1) hlen1 hwide1 hnf'
      refine ⟨g', ?_, hlen', hwide', ?_⟩
      · rw [mergeRows_cons, Option.some_bind, hg1, hg']
      · intro i j hi hj
        rw [hchar' i j hi hj, hchar1 i j hi hj, pieceVal_cons]
        by_cases hiy : (i : Int) = y
        · have hrest0 : pieceVal rest x (y + 1) i j = 0 := by
            unfold pieceVal
            rw [if_neg (by omega)]
          simp [hiy, hrest0]
        · simp [hiy]

theorem mergeCells_none_of_neg (cells : List Nat) (g : List (List Nat))
    (x y : Int) (hy : y < 0)
    (hbad : ∃ c : Nat, c < cells.length ∧ cells.getD c 0 ≠ 0 ∧
      x + c < (COLS : Int)) :
    mergeCells g cells x y = none := by
  induction cells generalizing g x with
  | nil => obtain ⟨c, hc, -, -⟩ := hbad; simp at hc
  | cons cell rest ih =>
      obtain ⟨c, hc, h1, h2⟩ := hbad
      cases c with
      | zero =>
          have hR : (0 : Int) < (ROWS : Int) := by norm_num [ROWS]
          have hguard : cell ≠ 0 ∧ y < (ROWS : Int) ∧ x < (COLS : Int) :=
            ⟨by simpa using h1, by omega, by simpa using h2⟩
          rw [mergeCells_cons, if_pos hguard]
          have hw : writeCell g y x cell = none := by
            unfold writeCell
            rw [if_neg (by rintro ⟨h0, -⟩; omega)]
          rw [hw, Option.none_bind]
      | succ c =>
          rw [mergeCells_cons]
          cases hcase : (if cell ≠ 0 ∧ y < (ROWS : Int) ∧ x < (COLS : Int)
              then writeCell g y x cell else some g) with
          | none => rw [Option.none_bind]
          | some g1 =>
              rw [Option.some_bind]
              apply ih
              refine ⟨c, by simp only [List.length_cons] at hc; omega,
                by simpa using h1, ?_⟩
              push_cast at h2 ⊢
              omega

theorem mergeRows_none_of_none (rows : List (List Nat)) (x y : Int) :
    mergeRows none rows x y = none := by
  induction rows generalizing y with
  | nil => rfl
  | cons row rest ih =>
      rw [mergeRows_cons, Option.none_bind]
      exact ih (y + 1)

theorem mergeRows_none_of_bad (rows : List (List Nat)) (g : List (List Nat))
    (x y : Int)
    (hbad : ∃ r : Nat, r < rows.length ∧ ∃ c : Nat,
      c < (rows.getD r []).length ∧ (rows.getD r []).getD c 0 ≠ 0 ∧
      x + c < (COLS : Int) ∧ y + r < 0) :
    mergeRows (some g) rows x y = none := by
  induction rows generalizing g y with
  | nil => obtain ⟨r, hr, -⟩ := hbad; simp at hr
  | cons row rest ih =>
      obtain ⟨r, hr, c, hc, h1, h2, h3⟩ := hbad
      rw [mergeRows_cons, Option.some_bind]
      cases r with
      | zero =>
          have hmc : mergeCells g row x y = none := by
            apply mergeCells_none_of_neg row g x y (by push_cast at h3; omega)
            exact ⟨c, by simpa using hc, by simpa using h1, h2⟩
          rw [hmc]
          exact mergeRows_none_of_none rest x (y + 1)
      | succ r =>
          cases hmc : mergeCells g row x y with
          | none => exact mergeRows_none_of_none rest x (y + 1)
          | some g1 =>
              apply ih g1 (y + 1)
              refine ⟨r, by simp only [List.length_cons] at hr; omega, c,
                by simpa using hc, by simpa using h1, h2, ?_⟩
              push_cast at h3 ⊢
              omega

theorem pieceVal_eq_of_cover (tetromino : List (List Nat)) (x y : Int)
    {r c : Nat} (hr : r < tetromino.length)
    (hc : c < (tetromino.getD r []).length) (i j : Nat)
    (hi : y + r = i) (hj : x + c = j) :
    pieceVal tetromino x y i j = (tetromino.getD r []).getD c 0 := by
  unfold pieceVal rowContrib
  rw [if_pos (by omega : 0 ≤ (i : Int) - y),
    show ((i : Int) - y).toNat = r from by omega,
    if_pos (by omega : 0 ≤ (j : Int) - x),
    show ((j : Int) - x).toNat = c from by omega]

theorem cover_of_pieceVal_ne (tetromino : List (List Nat)) (x y : Int)
    (i j : Nat) (hne : pieceVal tetromino x y i j ≠ 0) :
    ∃ r : Nat, r < tetromino.length ∧ ∃ c : Nat,
      c < (tetromino.getD r []).length ∧ (tetromino.getD r []).getD c 0 ≠ 0 ∧
      y + r = i ∧ x + c = j ∧
      pieceVal tetromino x y i j = (tetromino.getD r []).getD c 0 := by
  unfold pieceVal at hne
  by_cases h1 : 0 ≤ (i : Int) - y
  · rw [if_pos h1] at hne
    unfold rowContrib at hne
    by_cases h2 : 0 ≤ (j : Int) - x
    · rw [if_pos h2] at hne
      have hr : ((i : Int) - y).toNat < tetromino.length := by
        by_contra hge
        push_neg at hge
        rw [List.getD_eq_default _ _ hge] at hne
        simp at hne
      have hc : ((j : Int) - x).toNat
          < (tetromino.getD ((i : Int) - y).toNat []).length := by
        by_contra hge
        push_neg at hge
        rw [List.getD_eq_default _ _ hge] at hne
        exact hne rfl
      refine ⟨((i : Int) - y).toNat, hr, ((j : Int) - x).toNat, hc, hne,
        by omega, by omega, ?_⟩
      unfold pieceVal rowContrib
      rw [if_pos h1, if_pos h2]
    · rw [if_neg h2] at hne
      exact absurd rfl hne
  · rw [if_neg h1] at hne
    exact absurd rfl hne

theorem randomTetromino_mem (rand : Fin 7) :
    randomTetromino rand ∈ tetrominoShapes := by
  fin_cases rand <;> decide

/-- C1: a running game whose piece collides one row below and whose `y` is
positive locks the piece: the grid becomes `clearRows` of the merge of the
piece at its current position, the piece is replaced by a shape drawn from
the 7-shape table, and the position resets to the spawn coordinates
(`x = COLS / 2 - 1`, `y = 0`).  No hypothesis about the new piece colliding
on the updated grid is needed: the spawn is not collision-checked, and the
state stays running. -/
theorem drop_locks_clears_respawns (s : GameState) (rand : Fin 7)
    (hp : s.isPaused = false) (hg : s.gameOver = false)
    (hy : 0 < s.y) (hlen : s.grid.length = ROWS)
    (hcol : isColliding s.grid s.tetromino s.x (s.y + 1) = true) :
    ∃ mergedGrid,
      merge s.grid s.tetromino s.x s.y = some mergedGrid ∧
      dropTetromino rand s
        = some { s with grid := (clearRows mergedGrid).1,
                        tetromino := randomTetromino rand,
                        x := spawnX, y := 0 } ∧
      randomTetromino rand ∈ tetrominoShapes := by
  obtain ⟨mg, hmg, _⟩ :=
    mergeRows_some_of_nonneg s.tetromino s.grid s.x s.y (by omega) hlen
  have hmerge : merge s.grid s.tetromino s.x s.y = some mg := hmg
  refine ⟨mg, hmerge, ?_, randomTetromino_mem rand⟩
  have hbne : (s.y == 0) = false := beq_eq_false_iff_ne.mpr hy.ne'
  simp [dropTetromino, hp, hg, hcol, hbne, hmerge]

/-- C4 counterexample: merging the one-cell piece `[[1]]` at position
`(x, y) = (0, -1)` — whose only filled cell has target row `-1` — faults
(`none`, the TypeError `newGrid[-1][0] = cell` in the source) instead of
returning a grid with that cell silently dropped. -/
theorem merge_negative_row_faults :
    merge createGrid [[1]] 0 (-1) = none := by decide

/-- C4 (amended): on a well-formed grid, `merge` returns a new grid in
which every filled piece cell whose target coordinate lies within grid
bounds is written (cells beyond the bottom or right bound, and cells left
of the grid at an in-range row, are silently dropped), but a filled cell
whose target row is negative while its target column is `< COLS` makes
the merge fault (`none`) rather than being silently dropped. -/
theorem merge_writes_unless_negative_row (grid tetromino : List (List Nat))
    (x y : Int) (hwf : wfGrid grid) :
    ((∃ r : Nat, r < tetromino.length ∧ ∃ c : Nat,
        c < (tetromino.getD r []).length ∧
        (tetromino.getD r []).getD c 0 ≠ 0 ∧
        x + c < (COLS : Int) ∧ y + r < 0) →
      merge grid tetromino x y = none) ∧
    ((∀ r c : Nat, r < tetromino.length → c < (tetromino.getD r []).length →
        (tetromino.getD r []).getD c 0 ≠ 0 → x + c < (COLS : Int) →
        0 ≤ y + r) →
      ∃ mergedGrid, merge grid tetromino x y = some mergedGrid ∧
        wfGrid mergedGrid ∧
        ∀ i j, i < ROWS → j < COLS →
          gcell mergedGrid i j
            = if pieceVal tetromino x y i j ≠ 0 then pieceVal tetromino x y i j
              else gcell grid i j) := by
  constructor
  · intro hbad
    exact mergeRows_none_of_bad tetromino grid x y hbad
  · intro hnf
    obtain ⟨g', h1, h2, h3, h4⟩ :=
      mergeRows_char tetromino grid x y hwf.1 hwf.2 hnf
    exact ⟨g', h1, ⟨h2, h3⟩, h4⟩

theorem merge_writes_unless_negative_row_witness :
    wfGrid createGrid ∧ merge createGrid [[1, 1]] 3 (-1) = none :=
  ⟨by decide,
   (merge_writes_unless_negative_row createGrid [[1, 1]] 3 (-1) (by decide)).1
     ⟨0, by decide, 0, by decide, by decide, by decide, by decide⟩⟩

/-- C10: if the piece does not collide and every filled cell sits at a
nonnegative row and column, merging never overwrites an occupied cell:
every occupied input cell keeps its value, and the cells that change from
empty to occupied are exactly the filled cells of the piece at that
position. -/
theorem merge_no_overwrite (grid tetromino : List (List Nat)) (x y : Int)
    (hwf : wfGrid grid)
    (hcol : isColliding grid tetromino x y = false)
    (hpos : ∀ r c : Nat, r < tetromino.length →
      c < (tetromino.getD r []).length →
      (tetromino.getD r []).getD c 0 ≠ 0 → 0 ≤ y + r ∧ 0 ≤ x + c) :
    ∃ mergedGrid, merge grid tetromino x y = some mergedGrid ∧
      (∀ i j, i < ROWS → j < COLS → gcell grid i j ≠ 0 →
        gcell mergedGrid i j = gcell grid i j) ∧
      (∀ i j, i < ROWS → j < COLS →
        ((gcell grid i j = 0 ∧ gcell mergedGrid i j ≠ 0) ↔
          ∃ r : Nat, r < tetromino.length ∧ ∃ c : Nat,
            c < (tetromino.getD r []).length ∧
            (tetromino.getD r []).getD c 0 ≠ 0 ∧
            y + r = i ∧ x + c = j)) := by
  have hnc : ¬(isColliding grid tetromino x y = true) := by simp [hcol]
  rw [isColliding_char] at hnc
  push_neg at hnc
  obtain ⟨g', hg', hlen', hwide', hchar'⟩ :=
    mergeRows_char tetromino grid x y hwf.1 hwf.2
      (fun r c hr hc hf _ => (hpos r c hr hc hf).1)
  have hgridzero : ∀ r c : Nat, r < tetromino.length →
      c < (tetromino.getD r []).length →
      (tetromino.getD r []).getD c 0 ≠ 0 →
      ∀ i j : Nat, y + r = i → x + c = j → gcell grid i j = 0 := by
    intro r c hr hc hf i j hyi hxj
    have h4 := (hnc r hr c hc hf).2.2.2 (by omega)
    unfold gcell
    rw [show i = (y + (r : Int)).toNat from by omega,
      show j = (x + (c : Int)).toNat from by omega]
    exact h4
  refine ⟨g', hg', ?_, ?_⟩
  · intro i j hi hj hocc
    rw [hchar' i j hi hj]
    by_cases hpv : pieceVal tetromino x y i j ≠ 0
    · obtain ⟨r, hr, c, hc, hf, hyi, hxj, -⟩ :=
        cover_of_pieceVal_ne tetromino x y i j hpv
      exact absurd (hgridzero r c hr hc hf i j hyi hxj) hocc
    · rw [if_neg hpv]
  · intro i j hi hj
    constructor
    · rintro ⟨hz, hnzm⟩
      rw [hchar' i j hi hj] at hnzm
      by_cases hpv : pieceVal tetromino x y i j ≠ 0
      · obtain ⟨r, hr, c, hc, hf, hyi, hxj, -⟩ :=
          cover_of_pieceVal_ne tetromino x y i j hpv
        exact ⟨r, hr, c, hc, hf, hyi, hxj⟩
      · rw [if_neg hpv] at hnzm
        exact absurd hz hnzm
    · rintro ⟨r, hr, c, hc, hf, hyi, hxj⟩
      have hv : pieceVal tetromino x y i j = (tetromino.getD r []).getD c 0 :=
        pieceVal_eq_of_cover tetromino x y hr hc i j hyi hxj
      have hpv : pieceVal tetromino x y i j ≠ 0 := by rw [hv]; exact hf
      refine ⟨hgridzero r c hr hc hf i j hyi hxj, ?_⟩
      rw [hchar' i j hi hj, if_pos hpv]
      exact hpv

theorem merge_no_overwrite_witness :
    (wfGrid createGrid ∧ isColliding createGrid [[1]] 4 0 = false) ∧
    ∃ mergedGrid, merge createGrid [[1]] 4 0 = some mergedGrid ∧
      (∀ i j, i < ROWS → j < COLS → gcell createGrid i j ≠ 0 →
        gcell mergedGrid i j = gcell createGrid i j) ∧
      (∀ i j, i < ROWS → j < COLS →
        ((gcell createGrid i j = 0 ∧ gcell mergedGrid i j ≠ 0) ↔
          ∃ r : Nat, r < ([[1]] : List (List Nat)).length ∧ ∃ c : Nat,
            c < (([[1]] : List (List Nat)).getD r []).length ∧
            (([[1]] : List (List Nat)).getD r []).getD c 0 ≠ 0 ∧
            (0 : Int) + r = i ∧ (4 : Int) + c = j)) :=
  ⟨⟨by decide, by decide⟩,
   merge_no_overwrite createGrid [[1]] 4 0 (by decide) (by decide)
     (by intro r c _ _ _; omega)⟩

theorem drop_locks_clears_respawns_witness :
    ((0 : Int) < 19 ∧ createGrid.length = ROWS ∧
      isColliding createGrid [[1]] 4 (19 + 1) = true) ∧
    ∃ mergedGrid,
      merge createGrid [[1]] 4 19 = some mergedGrid ∧
      dropTetromino 0 ⟨createGrid, [[1]], 4, 19, false, false⟩
        = some { (⟨createGrid, [[1]], 4, 19, false, false⟩ : GameState) with
                   grid := (clearRows mergedGrid).1,
                   tetromino := randomTetromino 0, x := spawnX, y := 0 } ∧
      randomTetromino 0 ∈ tetrominoShapes :=
  ⟨⟨by decide, by decide, by decide⟩,
   drop_locks_clears_respawns ⟨createGrid, [[1]], 4, 19, false, false⟩ 0 rfl rfl
     (by decide) (by decide) (by decide)⟩

end FleekTetris
